import Mathlib

/-!
Shallow embedding of the rx-forms reactive form-control library.

The library derives control validity from a dynamic map of named boolean
predicate streams, propagates dirty/touched/required flags through a uniform
control abstraction, aggregates child controls into form-level state, and
deduplicates physical radio inputs into shared logical controls.

The embedding works over instantaneous snapshots: a predicate stream is
represented by the latest boolean it has emitted, a `BehaviorSubject` by its
current value, and each reactive recomputation by the pure function the
source pipes apply to those latest values.
-/

/-- A validator mapping snapshot paired with the latest boolean emitted by
each predicate stream: entries are `(name, latestValue)` in JS `Map`
iteration (insertion) order. -/
abbrev ValidatorsLatest := List (String × Bool)

/-- `rxValid` of `createControlObservables`: an empty mapping switches to
`of([])`, otherwise `combineLatest` yields the list of latest predicate
values in map order; the result is `!validList.some(valid => !valid)`. -/
def rxValid (validators : ValidatorsLatest) : Bool :=
  let validList : List Bool :=
    if validators.length == 0 then [] else validators.map (fun p => p.2)
  !(validList.any (fun valid => !valid))

/-- `rxValidationErrors` of `createControlObservables`: each predicate is
mapped to `valid ? null : name`, the latest such messages are combined in
map order, and the non-null ones are kept. -/
def rxValidationErrors (validators : ValidatorsLatest) : List String :=
  let messageList : List (Option String) :=
    if validators.length == 0 then []
    else validators.map (fun p => if p.2 then none else some p.1)
  messageList.filterMap id

/-- Spec-side reading of the `valid` derivation: the logical AND of the
latest value of every predicate in the mapping. -/
def specValidAnd (validators : ValidatorsLatest) : Bool :=
  validators.all (fun p => p.2)

/-- Spec-side reading of the `validationErrors` derivation: the names whose
predicate's latest value is false, in mapping iteration order. -/
def specFailingNames (validators : ValidatorsLatest) : List String :=
  (validators.filter (fun p => !p.2)).map (fun p => p.1)

theorem rxValid_eq_not_any (validators : ValidatorsLatest) :
    rxValid validators = !((validators.map (fun p => p.2)).any (fun valid => !valid)) := by
  cases validators <;> rfl

theorem rxValid_eq_all (validators : ValidatorsLatest) :
    rxValid validators = specValidAnd validators := by
  rw [rxValid_eq_not_any]
  induction validators with
  | nil => rfl
  | cons p rest ih =>
    cases hp : p.2 <;> simp [specValidAnd, hp] at ih ⊢
    simp [ih]

/-- Claim C1: for every validator mapping and every assignment of latest
boolean values to its predicate streams, the derived `valid` equals the
logical AND of those latest values, and equals true when the mapping is
empty. -/
theorem valid_eq_and_of_latest (validators : ValidatorsLatest) :
    rxValid validators = specValidAnd validators ∧ rxValid [] = true :=
  ⟨rxValid_eq_all validators, rfl⟩

theorem filterMap_messages_eq_failing (validators : ValidatorsLatest) :
    (validators.map (fun p => if p.2 then none else some p.1)).filterMap id
      = specFailingNames validators := by
  induction validators with
  | nil => rfl
  | cons p rest ih =>
    cases hp : p.2 <;> simp [specFailingNames, hp] at ih ⊢ <;> simpa [specFailingNames] using ih

theorem rxValidationErrors_eq_filter (validators : ValidatorsLatest) :
    rxValidationErrors validators = specFailingNames validators := by
  have hswitch : rxValidationErrors validators
      = (validators.map (fun p => if p.2 then none else some p.1)).filterMap id := by
    cases validators <;> rfl
  rw [hswitch, filterMap_messages_eq_failing]

/-- Claim C2: `validationErrors` is exactly the list of names whose
predicate's latest value is false, in mapping iteration order, and `valid`
is true if and only if `validationErrors` is empty. -/
theorem validationErrors_failing_names_and_valid_iff_empty (validators : ValidatorsLatest) :
    rxValidationErrors validators = specFailingNames validators
    ∧ (rxValid validators = true ↔ rxValidationErrors validators = []) := by
  refine ⟨rxValidationErrors_eq_filter validators, ?_⟩
  rw [rxValidationErrors_eq_filter, rxValid_eq_all]
  constructor
  · intro h
    simp only [specValidAnd, List.all_eq_true] at h
    simp only [specFailingNames, List.map_eq_nil_iff, List.filter_eq_nil_iff]
    intro p hp
    simp [h p hp]
  · intro h
    simp only [specFailingNames, List.map_eq_nil_iff, List.filter_eq_nil_iff] at h
    simp only [specValidAnd, List.all_eq_true]
    intro p hp
    have := h p hp
    simpa using this

/-- JS `Map.prototype.set`: when the key is already present, the entry is
overwritten in place and keeps its original insertion position; otherwise
the new entry is appended at the end of the iteration order. -/
def jsMapSet {κ α : Type} [BEq κ] : List (κ × α) → κ → α → List (κ × α)
  | [], key, v => [(key, v)]
  | p :: rest, key, v =>
    if p.1 == key then (key, v) :: rest else p :: jsMapSet rest key v

/-- JS `Map.prototype.get`: the value of the entry with the key, if any. -/
def jsMapGet {κ α : Type} [BEq κ] : List (κ × α) → κ → Option α
  | [], _ => none
  | p :: rest, key => if p.1 == key then some p.2 else jsMapGet rest key

/-- JS `Map.prototype.has`. -/
def jsMapHas {κ α : Type} [BEq κ] : List (κ × α) → κ → Bool
  | [], _ => false
  | p :: rest, key => p.1 == key || jsMapHas rest key

/-- JS `Map.prototype.delete`, seen as the state after the call: every
entry with the key is gone. -/
def jsMapDelete {κ α : Type} [BEq κ] (m : List (κ × α)) (key : κ) : List (κ × α) :=
  m.filter (fun p => !(p.1 == key))

theorem jsMapGet_jsMapSet {κ α : Type} [BEq κ] [LawfulBEq κ]
    (m : List (κ × α)) (key key' : κ) (v : α) :
    jsMapGet (jsMapSet m key v) key' = if key' == key then some v else jsMapGet m key' := by
  induction m with
  | nil =>
    by_cases h : key' = key
    · subst h
      simp [jsMapSet, jsMapGet]
    · simp [jsMapSet, jsMapGet, beq_iff_eq, h, Ne.symm h]
  | cons p rest ih =>
    by_cases hk : p.1 = key
    · by_cases h : key' = key
      · subst h
        simp [jsMapSet, jsMapGet, hk]
      · have hpk' : ¬ p.1 = key' := fun hh => h (hh.symm.trans hk)
        simp [jsMapSet, jsMapGet, beq_iff_eq, hk, hpk', h, Ne.symm h]
    · by_cases hk' : p.1 = key'
      · have h : ¬ key' = key := fun hh => hk (hk'.trans hh)
        simp [jsMapSet, jsMapGet, beq_iff_eq, hk, hk', h]
      · simp [jsMapSet, jsMapGet, beq_iff_eq, hk, hk', ih]

theorem jsMapHas_eq_any {κ α : Type} [BEq κ] (m : List (κ × α)) (key : κ) :
    jsMapHas m key = m.any (fun p => p.1 == key) := by
  induction m with
  | nil => rfl
  | cons p rest ih => simp [jsMapHas, ih]

theorem jsMapSet_keys {κ α : Type} [BEq κ] [LawfulBEq κ] (m : List (κ × α)) (key : κ) (v : α) :
    (jsMapSet m key v).map Prod.fst
      = if jsMapHas m key then m.map Prod.fst else m.map Prod.fst ++ [key] := by
  induction m with
  | nil => simp [jsMapSet, jsMapHas]
  | cons p rest ih =>
    by_cases hk : p.1 = key
    · simp [jsMapSet, jsMapHas, hk]
    · have hbk : (p.1 == key) = false := by simpa using hk
      simp only [jsMapSet, jsMapHas, hbk, Bool.false_eq_true, if_false, List.map_cons,
        Bool.false_or, ih]
      cases hh : jsMapHas rest key <;> simp [hh]

theorem jsMapSet_keys_nodup {κ α : Type} [BEq κ] [LawfulBEq κ]
    (m : List (κ × α)) (key : κ) (v : α) (h : (m.map Prod.fst).Nodup) :
    ((jsMapSet m key v).map Prod.fst).Nodup := by
  rw [jsMapSet_keys]
  cases hhas : jsMapHas m key
  · rw [jsMapHas_eq_any] at hhas
    have hnotmem : key ∉ m.map Prod.fst := by
      intro hmem
      obtain ⟨p, hp, hfst⟩ := List.mem_map.mp hmem
      have := List.any_eq_false.mp hhas p hp
      simp [hfst] at this
    simp [List.nodup_append, h, hnotmem]
  · simpa using h

theorem jsMapGet_jsMapDelete_self {κ α : Type} [BEq κ] [LawfulBEq κ]
    (m : List (κ × α)) (key : κ) :
    jsMapGet (jsMapDelete m key) key = none := by
  induction m with
  | nil => rfl
  | cons p rest ih =>
    by_cases hk : p.1 = key
    · have hbk : (p.1 == key) = true := by simpa using hk
      simpa [jsMapDelete, List.filter_cons, hbk] using ih
    · have hbk : (p.1 == key) = false := by simpa using hk
      simpa [jsMapDelete, List.filter_cons, hbk, jsMapGet] using ih

theorem jsMapGet_eq_none_of_not_has {κ α : Type} [BEq κ] [LawfulBEq κ]
    (m : List (κ × α)) (key : κ) (h : jsMapHas m key = false) :
    jsMapGet m key = none := by
  induction m with
  | nil => rfl
  | cons p rest ih =>
    simp only [jsMapHas, Bool.or_eq_false_iff] at h
    simp [jsMapGet, h.1, ih h.2]

/-- `setValidator` (control.ts): copies the current mapping into a new
`Map`, sets the entry, and republishes the snapshot. -/
def setValidator {α : Type} (validators : List (String × α)) (name : String) (validator : α) :
    List (String × α) :=
  jsMapSet validators name validator

/-- `removeValidator` (control.ts): copies the current mapping, and only
when the name is present deletes it and republishes; otherwise the
published snapshot stays the old one. -/
def removeValidator {α : Type} (validators : List (String × α)) (validator : String) :
    List (String × α) :=
  if jsMapHas validators validator then jsMapDelete validators validator else validators

/-- Claim C9: `setValidator(name, p)` produces a snapshot in which `name`
maps to `p` and no two entries share a name (a second `setValidator` with
the same name replaces, last write wins), and `removeValidator(name)`
removes the entry when present and leaves the mapping unchanged when
absent. -/
theorem setValidator_removeValidator_spec {α : Type} (m : List (String × α))
    (name : String) (v w : α) (h : (m.map Prod.fst).Nodup) :
    jsMapGet (setValidator m name v) name = some v
    ∧ ((setValidator m name v).map Prod.fst).Nodup
    ∧ jsMapGet (setValidator (setValidator m name v) name w) name = some w
    ∧ jsMapGet (removeValidator m name) name = none
    ∧ (jsMapHas m name = false → removeValidator m name = m) := by
  refine ⟨?_, jsMapSet_keys_nodup m name v h, ?_, ?_, ?_⟩
  · rw [setValidator, jsMapGet_jsMapSet]; simp
  · rw [setValidator, setValidator, jsMapGet_jsMapSet]; simp
  · unfold removeValidator
    cases hhas : jsMapHas m name
    · simpa using jsMapGet_eq_none_of_not_has m name hhas
    · simpa using jsMapGet_jsMapDelete_self m name
  · intro hhas
    simp [removeValidator, hhas]

/-- Witness for claim C9 at a concrete mapping. -/
theorem setValidator_removeValidator_spec_witness :
    (([("min", false)] : List (String × Bool)).map Prod.fst).Nodup
    ∧ (jsMapGet (setValidator [("min", false)] "max" true) "max" = some true
      ∧ ((setValidator [("min", false)] "max" true).map Prod.fst).Nodup
      ∧ jsMapGet (setValidator (setValidator [("min", false)] "max" true) "max" false) "max"
          = some false
      ∧ jsMapGet (removeValidator [("min", false)] "max") "max" = none
      ∧ (jsMapHas [("min", false)] "max" = false
          → removeValidator [("min", false)] "max" = [("min", false)])) :=
  ⟨by decide, setValidator_removeValidator_spec [("min", false)] "max" true false (by decide)⟩

/-- A validator predicate stream installed on a text control: either the
control's own `rxSet` stream, or an external predicate stream of which only
the latest emitted boolean matters here. -/
inductive PredStream where
  | rxSetStream : PredStream
  | externalStream (latest : Bool) : PredStream
deriving DecidableEq

/-- The `BehaviorSubject`s and validator mapping of a text control
(`RxTextInput` / `RxInputText`). -/
structure TextControlState where
  value : String
  required : Bool
  pristine : Bool
  untouched : Bool
  validators : List (String × PredStream)
deriving DecidableEq

/-- `rxSet` of the text control: `rxValue.pipe(map(value => value.length !== 0))`. -/
def textRxSet (s : TextControlState) : Bool :=
  s.value.length != 0

/-- The latest boolean of a predicate stream, given the control state. -/
def latestOf (s : TextControlState) : PredStream → Bool
  | PredStream.rxSetStream => textRxSet s
  | PredStream.externalStream b => b

/-- The validator mapping of the control paired with the latest value of
each installed predicate stream, feeding `rxValid`/`rxValidationErrors`. -/
def latestValidators (s : TextControlState) : ValidatorsLatest :=
  s.validators.map (fun p => (p.1, latestOf s p.2))

/-- A freshly constructed text control: empty string value, not required,
pristine and untouched, no validators installed. -/
def freshTextControl : TextControlState :=
  { value := "", required := false, pristine := true, untouched := true, validators := [] }

/-- `setValue` of the text control: publishes the value and marks the
control dirty. -/
def textSetValue (s : TextControlState) (v : String) : TextControlState :=
  { s with value := v, pristine := false }

/-- The `rxRequired` subscription installed by
`bindControlObservablesToValidators`: when `required` is false the
"required" validator is removed, otherwise the control's own `rxSet` stream
is installed as the validator named "required". -/
def onRequiredChange (s : TextControlState) (required : Bool) : TextControlState :=
  let s1 := { s with required := required }
  if !required then
    { s1 with validators := removeValidator s1.validators "required" }
  else
    { s1 with validators := setValidator s1.validators "required" PredStream.rxSetStream }

/-- Claim C3: when `required` flips to true a validator named "required" is
installed whose predicate is the control's own "set" stream, and when it
flips to false that validator is removed; a fresh text control with empty
value and required=true has valid=false with "required" among the
validation errors, and after `setValue` of a non-empty value "required" is
no longer among the errors. -/
theorem required_validator_wiring (s : TextControlState) :
    jsMapGet (onRequiredChange s true).validators "required" = some PredStream.rxSetStream
    ∧ jsMapGet (onRequiredChange s false).validators "required" = none
    ∧ rxValid (latestValidators (onRequiredChange freshTextControl true)) = false
    ∧ "required" ∈ rxValidationErrors (latestValidators (onRequiredChange freshTextControl true))
    ∧ "required" ∉ rxValidationErrors
        (latestValidators (textSetValue (onRequiredChange freshTextControl true) "x")) := by
  refine ⟨?_, ?_, by decide, by decide, by decide⟩
  · show jsMapGet (setValidator s.validators "required" PredStream.rxSetStream) "required"
      = some PredStream.rxSetStream
    rw [setValidator, jsMapGet_jsMapSet]
    simp
  · show jsMapGet (removeValidator s.validators "required") "required" = none
    unfold removeValidator
    cases hhas : jsMapHas s.validators "required"
    · simpa using jsMapGet_eq_none_of_not_has s.validators "required" hhas
    · simpa using jsMapGet_jsMapDelete_self s.validators "required"

/-- Current value and dirty/touched flags of a control, as kept in its
`BehaviorSubject`s. -/
structure SimpleControlState (T : Type) where
  value : T
  pristine : Bool
  untouched : Bool
deriving DecidableEq

/-- `markAsDirty`: `pristine$.next(false)`. -/
def markAsDirty {T : Type} (s : SimpleControlState T) : SimpleControlState T :=
  { s with pristine := false }

/-- `rxDirty`: `rxPristine.pipe(map(value => !value))`. -/
def rxDirtyOf {T : Type} (s : SimpleControlState T) : Bool :=
  !s.pristine

/-- A freshly constructed control: `pristine$` and `untouched$` start at
`new BehaviorSubject(true)`. -/
def freshControlState {T : Type} (v : T) : SimpleControlState T :=
  { value := v, pristine := true, untouched := true }

/-- `RadioControl.setValue` (and likewise the text/date/number/select
controls): `value$.next(value)` followed by `this.markAsDirty()`. -/
def radioSetValue {T : Type} (s : SimpleControlState T) (v : T) : SimpleControlState T :=
  markAsDirty { s with value := v }

/-- `AbstractControl.setValue` (src/src/elements/abstract-control.ts):
only `this.value$.next(value)`; the pristine flag is left untouched. -/
def abstractSetValue {T : Type} (s : SimpleControlState T) (v : T) : SimpleControlState T :=
  { s with value := v }

/-- Counterexample to claim C7 as stated: on the legacy `AbstractControl`,
a fresh control is still pristine (not dirty) after a `setValue` call, so
"after any setValue call the control is dirty" fails for that control
class. -/
theorem abstract_setValue_leaves_pristine_cex :
    ¬ (rxDirtyOf (abstractSetValue (freshControlState "") "x") = true) := by
  simp [rxDirtyOf, abstractSetValue, freshControlState]

/-- Claim C7 (amended): for the controls implementing the `Control`
interface (radio/text/date/number/select, whose `setValue` calls
`markAsDirty`), a fresh control is pristine and not dirty, any `setValue`
leaves it dirty and not pristine, and dirty is the negation of pristine at
every instant; the legacy `AbstractControl.setValue` is the exception that
does not mark dirty. -/
theorem dirty_pristine_coupling_amended {T : Type} (v0 v : T) (s : SimpleControlState T) :
    (freshControlState v0).pristine = true
    ∧ rxDirtyOf (freshControlState v0) = false
    ∧ (radioSetValue s v).pristine = false
    ∧ rxDirtyOf (radioSetValue s v) = true
    ∧ rxDirtyOf s = !s.pristine :=
  ⟨rfl, rfl, rfl, rfl, rfl⟩

/-- `RxForm.addControl`: reads the current control array and republishes
`[...controls, control]` only when `controls.indexOf(control) === -1`.
Controls are identified here by an id standing for object identity. -/
def addControl (controls : List Nat) (control : Nat) : List Nat :=
  if !(controls.contains control) then controls ++ [control] else controls

/-- `RxForm.removeControl` as written in the source: the republish of
`controls.filter(c => c !== control)` is guarded by
`controls.indexOf(control) === -1`, i.e. it only happens when the control
is absent. -/
def removeControl (controls : List Nat) (control : Nat) : List Nat :=
  if !(controls.contains control) then controls.filter (fun c => c != control) else controls

/-- Claim C6, evaluated at the failing input: adding twice keeps one copy
and removing an absent control is a no-op as the claim states, but
removing a present control leaves the control set unchanged — the guard in
`removeControl` is inverted, so the control is never actually removed. -/
theorem removeControl_keeps_present_control :
    addControl (addControl [] 7) 7 = [7]
    ∧ removeControl [7] 9 = [7]
    ∧ removeControl [7] 7 = [7] := by
  refine ⟨rfl, rfl, rfl⟩

/-- A registered control of a form, reduced to the latest values of the
observables the form aggregator consumes. -/
structure FormControl where
  name : String
  value : String
  valid : Bool
  untouched : Bool
deriving DecidableEq

/-- `rxValid` of `RxForm`: an empty control set switches to `of([])`,
otherwise `combineLatest` of every member's `rxValid`; the fold maps an
empty list to true and otherwise takes `!validList.some(valid => !valid)`. -/
def formRxValid (controls : List FormControl) : Bool :=
  let validList : List Bool :=
    if controls.length == 0 then [] else controls.map (fun c => c.valid)
  if validList.length == 0 then true else !(validList.any (fun valid => !valid))

/-- `rxValue` of `RxForm`: the latest `(name, value)` pairs are folded into
an object via `result[value.name] = value.value`, in control order, so a
later control with the same name overwrites the earlier entry. -/
def rxValueSnapshot (controls : List FormControl) : List (String × String) :=
  controls.foldl (fun result c => jsMapSet result c.name c.value) []

/-- `RxForm.get`: `controls$.getValue().find(control => control.getName()
=== name)`, throwing when no control matches. -/
def formGet (controls : List FormControl) (name : String) : Except String FormControl :=
  match controls.find? (fun control => control.name == name) with
  | some result => Except.ok result
  | none =>
    Except.error ("Control with name \"" ++ name ++ "\" not found in <rx-form>")

/-- The `rxSubmit` pipeline of `RxForm.setup` at one submit-trigger
activation: the click is paired with the latest validity
(`withLatestFrom(this.rxValid)`), dropped unless valid (`filter`), and then
replaced by the current value snapshot (`switchMap(() =>
this.rxValue.pipe(take(1)))`). -/
def rxSubmitOnClick (controls : List FormControl) : Option (List (String × String)) :=
  let clickWithValid := ((), formRxValid controls)
  if clickWithValid.2 then some (rxValueSnapshot controls) else none

/-- The click subscription of `RxForm.connectedCallback`: on every submit
button click, `control.markAsTouched()` runs for every registered
control. -/
def markAllTouchedOnClick (controls : List FormControl) : List FormControl :=
  controls.map (fun control => { control with untouched := false })

/-- The native `submit` listener of `RxForm.connectedCallback`:
`if (!valid) event.preventDefault()` with `valid` tracking `rxValid`. -/
def nativeSubmitPrevented (controls : List FormControl) : Bool :=
  !(formRxValid controls)

/-- Claim C4: a value snapshot is emitted on the submit stream if and only
if the form's latest validity is true at the trigger; an invalid-at-trigger
activation emits nothing and the native submission is suppressed; and on
every trigger activation, regardless of validity, every currently
registered control is marked touched. -/
theorem submit_gating_and_touch_marking (controls : List FormControl) :
    ((rxSubmitOnClick controls).isSome = formRxValid controls)
    ∧ (formRxValid controls = false
        → rxSubmitOnClick controls = none ∧ nativeSubmitPrevented controls = true)
    ∧ (formRxValid controls = true
        → rxSubmitOnClick controls = some (rxValueSnapshot controls))
    ∧ (∀ c ∈ markAllTouchedOnClick controls, c.untouched = false) := by
  refine ⟨?_, ?_, ?_, ?_⟩
  · unfold rxSubmitOnClick
    cases h : formRxValid controls <;> simp [h]
  · intro h
    simp [rxSubmitOnClick, nativeSubmitPrevented, h]
  · intro h
    simp [rxSubmitOnClick, h]
  · intro c hc
    obtain ⟨c0, _, rfl⟩ := List.mem_map.mp hc
    rfl

/-- A control that currently fails validation. -/
def ctrlInvalid : FormControl :=
  { name := "a", value := "1", valid := false, untouched := true }

/-- Witness for claim C4: with one invalid control, a submit trigger emits
nothing and the native submission is suppressed. -/
theorem submit_gating_and_touch_marking_witness :
    formRxValid [ctrlInvalid] = false
    ∧ (rxSubmitOnClick [ctrlInvalid] = none ∧ nativeSubmitPrevented [ctrlInvalid] = true) :=
  ⟨by decide, (submit_gating_and_touch_marking [ctrlInvalid]).2.1 (by decide)⟩

theorem find?_eq_head?_filter {α : Type} (l : List α) (p : α → Bool) :
    l.find? p = (l.filter p).head? := by
  induction l with
  | nil => rfl
  | cons x rest ih =>
    cases hx : p x
    · rw [List.find?_cons_of_neg _ (by simp [hx]), List.filter_cons_of_neg (by simp [hx]), ih]
    · rw [List.find?_cons_of_pos _ hx, List.filter_cons_of_pos hx]
      rfl

theorem rxValueSnapshot_append (l : List FormControl) (c : FormControl) :
    rxValueSnapshot (l ++ [c]) = jsMapSet (rxValueSnapshot l) c.name c.value := by
  simp [rxValueSnapshot, List.foldl_append]

theorem jsMapGet_rxValueSnapshot (controls : List FormControl) (n : String) :
    jsMapGet (rxValueSnapshot controls) n
      = ((controls.filter (fun c => c.name == n)).getLast?).map (fun c => c.value) := by
  induction controls using List.reverseRecOn with
  | nil => rfl
  | append_singleton l c ih =>
    rw [rxValueSnapshot_append, jsMapGet_jsMapSet, List.filter_append]
    by_cases h : c.name = n
    · have hb : (c.name == n) = true := by simpa using h
      have hb' : (n == c.name) = true := by simpa using h.symm
      simp [hb, hb', List.getLast?_concat]
    · have hb : (c.name == n) = false := by simpa using h
      have hb' : (n == c.name) = false := by simpa using fun hh => h hh.symm
      simp [hb, hb', ih]

/-- Claim C10: when two or more registered controls currently share the
name `n`, `get(n)` returns the earliest-registered control with that name
(the first match in registration order), while the `rxValue` snapshot maps
`n` to the last-processed control's value. -/
theorem formGet_first_match_value_last_write (controls : List FormControl) (n : String)
    (h : 2 ≤ (controls.filter (fun c => c.name == n)).length) :
    (∃ c, formGet controls n = Except.ok c
        ∧ (controls.filter (fun c2 => c2.name == n)).head? = some c)
    ∧ jsMapGet (rxValueSnapshot controls) n
        = ((controls.filter (fun c => c.name == n)).getLast?).map (fun c => c.value) := by
  refine ⟨?_, jsMapGet_rxValueSnapshot controls n⟩
  cases hh : (controls.filter (fun c2 => c2.name == n)).head? with
  | none =>
    exfalso
    have hnil := List.head?_eq_none_iff.mp hh
    rw [hnil] at h
    simp at h
  | some c =>
    refine ⟨c, ?_, rfl⟩
    unfold formGet
    rw [find?_eq_head?_filter, hh]

/-- Two controls currently sharing the name "a". -/
def ctrlA1 : FormControl := { name := "a", value := "1", valid := true, untouched := true }

/-- Second control with the name "a" but another value. -/
def ctrlA2 : FormControl := { name := "a", value := "2", valid := true, untouched := true }

/-- Witness for claim C10 on two controls named "a": `get` resolves to the
first while the value snapshot holds the second's value. -/
theorem formGet_first_match_value_last_write_witness :
    2 ≤ (([ctrlA1, ctrlA2] : List FormControl).filter (fun c => c.name == "a")).length
    ∧ ((∃ c, formGet [ctrlA1, ctrlA2] "a" = Except.ok c
          ∧ (([ctrlA1, ctrlA2] : List FormControl).filter (fun c2 => c2.name == "a")).head?
              = some c)
      ∧ jsMapGet (rxValueSnapshot [ctrlA1, ctrlA2]) "a"
          = ((([ctrlA1, ctrlA2] : List FormControl).filter (fun c => c.name == "a")).getLast?).map
              (fun c => c.value)) :=
  ⟨by decide, formGet_first_match_value_last_write [ctrlA1, ctrlA2] "a" (by decide)⟩

/-- A key of the registry's `inputsCount` WeakMap. `add` stores counts under
the logical `RadioControl` object, while `remove` reads and writes the
count under the physical input object; both object kinds are modelled as
tagged ids so that the two key spaces stay distinct, as the distinct
`RxInputRadio` and `RadioControl` instances are at runtime. -/
inductive RegEntity where
  | inputE (id : Nat) : RegEntity
  | controlE (id : Nat) : RegEntity
deriving DecidableEq, BEq

/-- The module-level tables of `radio-control-registry.ts`, for a single
scope (one parent form): `controls` maps a control name to the logical
control, `inputsToForm` records which physical inputs are bound to the
scope, and `inputsCount` holds the reference counts. -/
structure RegistryState where
  formControls : List (String × Nat)
  inputsToForm : List Nat
  inputsCount : List (RegEntity × Int)
deriving DecidableEq

/-- `RadioControlRegistry.add`: resolves the logical control for the
input's scope and name — the existing one when present, otherwise the
freshly constructed one, which is then registered — increments
`inputsCount` under the resolved control object (`inputsCount.set(control,
(inputsCount.get(control) || 0) + 1)`), and binds the input to the scope.
Returns the new state and the resolved control. The `form.addControl` side
effect lives on the form and is outside this state. -/
def registryAdd (s : RegistryState) (input : Nat) (name : String) (control : Nat) :
    RegistryState × Nat :=
  let resolved :=
    match jsMapGet s.formControls name with
    | some existControl => existControl
    | none => control
  let formControls1 :=
    match jsMapGet s.formControls name with
    | some _ => s.formControls
    | none => jsMapSet s.formControls name control
  let inputsCount1 :=
    jsMapSet s.inputsCount (RegEntity.controlE resolved)
      (((jsMapGet s.inputsCount (RegEntity.controlE resolved)).getD 0) + 1)
  let inputsToForm1 :=
    if s.inputsToForm.contains input then s.inputsToForm else s.inputsToForm ++ [input]
  ({ formControls := formControls1, inputsToForm := inputsToForm1,
     inputsCount := inputsCount1 }, resolved)

/-- `RadioControlRegistry.remove`: throws when the input is unknown;
otherwise decrements the count stored under the INPUT object
(`inputsCount.set(input, (inputsCount.get(input) || 0) - 1)`), unbinds the
input, throws when the re-read count is undefined or negative, and on zero
detaches the logical control, fires its disconnect signal (the returned
flag) and deletes the bookkeeping entries. -/
def registryRemove (s : RegistryState) (input : Nat) (name : String) :
    Except String (RegistryState × Bool) :=
  if !(s.inputsToForm.contains input) then
    Except.error "Not found parent form for input"
  else
    let cnt : Int := ((jsMapGet s.inputsCount (RegEntity.inputE input)).getD 0) - 1
    let inputsCount1 := jsMapSet s.inputsCount (RegEntity.inputE input) cnt
    let inputsToForm1 := s.inputsToForm.filter (fun i => i != input)
    match jsMapGet inputsCount1 (RegEntity.inputE input) with
    | none => Except.error "Form field inputs count undefined or < 0"
    | some formInputCount =>
      if formInputCount < 0 then
        Except.error "Form field inputs count undefined or < 0"
      else if formInputCount == 0 then
        match jsMapGet s.formControls name with
        | none => Except.error "Control for form field not found"
        | some control =>
          Except.ok
            ({ formControls := jsMapDelete s.formControls name,
               inputsToForm := inputsToForm1,
               inputsCount := jsMapDelete inputsCount1 (RegEntity.controlE control) }, true)
      else
        Except.ok ({ s with inputsCount := inputsCount1, inputsToForm := inputsToForm1 }, false)

/-- The registry's scope table before any input is attached. -/
def regEmpty : RegistryState :=
  { formControls := [], inputsToForm := [], inputsCount := [] }

/-- The state after attaching input 1 with a fresh logical control 10 under
the name "color". -/
def regOne : RegistryState := (registryAdd regEmpty 1 "color" 10).1

/-- The state after also attaching input 2 with another fresh logical
control 11 under the same name. -/
def regTwo : RegistryState := (registryAdd regOne 2 "color" 11).1

/-- Claim C5, evaluated at the failing input: the second `add` for the same
(scope, name) does return the existing logical control 10 as the claim
states, but `remove` of either input then throws "Form field inputs count
undefined or < 0" instead of decrementing the reference count — `add`
counts under the control key while `remove` reads the count under the
input key, so the re-read count is always -1. -/
theorem registry_remove_raises_count_error :
    (registryAdd regOne 2 "color" 11).2 = 10
    ∧ registryRemove regTwo 1 "color" = Except.error "Form field inputs count undefined or < 0"
    ∧ registryRemove regTwo 2 "color" = Except.error "Form field inputs count undefined or < 0" := by
  refine ⟨rfl, rfl, rfl⟩

/-- `checkControlRequiredAttributes` (control.ts): throws synchronously at
construction when the element carries no `name` attribute; the element is
modelled by the list of attribute names it carries. -/
def checkControlRequiredAttributes (attrs : List String) (tagName : String) :
    Except String Unit :=
  if !(attrs.contains "name") then
    Except.error ("Attribute \"name\" for <" ++ tagName ++ "> is required")
  else
    Except.ok ()

/-- Claim C8: each configuration misuse raises a synchronous error at the
point of misuse instead of producing an invalid-control state: a control
constructed without a name attribute, the grouped-control registry's
`remove` on an input that was never added, and the form's `get(name)` for
a name with no registered control. -/
theorem configuration_errors_throw (attrs : List String) (tag : String)
    (s : RegistryState) (input : Nat) (nm : String)
    (controls : List FormControl) (n : String)
    (h1 : attrs.contains "name" = false)
    (h2 : s.inputsToForm.contains input = false)
    (h3 : ∀ c ∈ controls, (c.name == n) = false) :
    checkControlRequiredAttributes attrs tag
        = Except.error ("Attribute \"name\" for <" ++ tag ++ "> is required")
    ∧ registryRemove s input nm = Except.error "Not found parent form for input"
    ∧ formGet controls n
        = Except.error ("Control with name \"" ++ n ++ "\" not found in <rx-form>") := by
  refine ⟨?_, ?_, ?_⟩
  · unfold checkControlRequiredAttributes
    rw [h1]
    rfl
  · unfold registryRemove
    rw [h2]
    rfl
  · have hf : controls.find? (fun control => control.name == n) = none :=
      List.find?_eq_none.mpr (fun c hc => by simp [h3 c hc])
    unfold formGet
    rw [hf]

/-- Witness for claim C8 on concrete misuses: an element with only a
`class` attribute, a remove on the empty registry, and a lookup in a form
with no controls. -/
theorem configuration_errors_throw_witness :
    ((["class"] : List String).contains "name" = false
      ∧ regEmpty.inputsToForm.contains 1 = false)
    ∧ (checkControlRequiredAttributes ["class"] "rx-text-input"
        = Except.error ("Attribute \"name\" for <" ++ "rx-text-input" ++ "> is required")
      ∧ registryRemove regEmpty 1 "color" = Except.error "Not found parent form for input"
      ∧ formGet [] "amount"
          = Except.error ("Control with name \"" ++ "amount" ++ "\" not found in <rx-form>")) :=
  ⟨⟨by decide, by decide⟩,
    configuration_errors_throw ["class"] "rx-text-input" regEmpty 1 "color" [] "amount"
      (by decide) (by decide) (by simp)⟩
